import Mathlib

/-!
# akmd daemon and KXTF9 sensor: a shallow embedding

Embedding of `akmd/main.cpp` (argument handling, the start/stop orchestrator
loop, the sampling thread) and of `libsensors/SensorKXTF9.cpp` (enable,
setDelay, readEvents, processEvent), with the properties of the written
specification stated over these definitions.

Conventions.
* C `int` values are `Int`; nothing here depends on wrap-around except the
  narrowing in `setDelay`, which is explicit.
* A C floating-point value is kept as an exact decimal `CFloat`
  (`mantissa / 10 ^ scale`); binary rounding is not modelled.
* Calls into the environment (pthread calls, ioctl, the input reader) take
  their outcome as an argument.
-/

namespace Akmd

/-! ## Floating-point values and the C library parsers -/

/-- A C floating-point value, kept exactly as `mantissa / 10 ^ scale`. -/
structure CFloat where
  mantissa : Int
  scale : Nat
deriving DecidableEq, Repr

/-- The conversion of an `int` to a floating-point value. -/
def CFloat.ofInt (n : Int) : CFloat := ⟨n, 0⟩

/-- The C conversion of a floating-point value to `int`: the fractional part
is discarded (truncation toward zero). -/
def CFloat.toInt (f : CFloat) : Int := Int.tdiv f.mantissa (10 ^ f.scale)

/-- Two floating-point values denote the same number. -/
def CFloat.sameValue (a b : CFloat) : Prop :=
  a.mantissa * 10 ^ b.scale = b.mantissa * 10 ^ a.scale

instance (a b : CFloat) : Decidable (CFloat.sameValue a b) := by
  unfold CFloat.sameValue; infer_instance

/-- The product `value * c` of an `int` with a floating-point constant. -/
def CFloat.scaleBy (value : Int) (c : CFloat) : CFloat := ⟨value * c.mantissa, c.scale⟩

/-- C `isspace` in the "C" locale: space, and the controls 9 to 13. -/
def isspace (c : Char) : Bool := c.toNat = 32 || (9 ≤ c.toNat && c.toNat ≤ 13)

/-- Drop the leading white space, as `strtol` and `strtod` do. -/
def skipSpace : List Char → List Char
  | [] => []
  | c :: cs => if isspace c then skipSpace cs else c :: cs

/-- Read the leading decimal digits: the value so far, the number of digits
read, and the rest of the text. -/
def readDigits (acc : Nat) (n : Nat) : List Char → Nat × Nat × List Char
  | [] => (acc, n, [])
  | c :: cs =>
    if c.isDigit then readDigits (acc * 10 + (c.toNat - 48)) (n + 1) cs
    else (acc, n, c :: cs)

/-- Split an optional sign off the front: `true` for a minus sign. -/
def readSign : List Char → Bool × List Char
  | '-' :: cs => (true, cs)
  | '+' :: cs => (false, cs)
  | cs => (false, cs)

/-- C `atoi`: white space, an optional sign, decimal digits; whatever follows
is ignored, and text with no leading number gives 0. (Out-of-range input is
undefined in C and is not modelled.) -/
def atoi (s : String) : Int :=
  let (neg, cs) := readSign (skipSpace s.toList)
  let (v, _, _) := readDigits 0 0 cs
  if neg then -(v : Int) else (v : Int)

/-- C `atof` on plain decimal text: white space, an optional sign, digits, an
optional point and more digits; whatever follows is ignored, and text with no
leading number gives 0. (Exponents, hexadecimal, infinities and NaN are not
modelled.) -/
def atof (s : String) : CFloat :=
  let (neg, cs) := readSign (skipSpace s.toList)
  let (ip, _, rest) := readDigits 0 0 cs
  let (m, k) :=
    match rest with
    | '.' :: fs =>
      let (fp, k, _) := readDigits ip 0 fs
      (fp, k)
    | _ => (ip, 0)
  ⟨if neg then -(m : Int) else (m : Int), k⟩

/-! ## `main` (akmd/main.cpp) -/

/-- How a run of `main` ends: it returns an exit status, or control passes to
one of the two main loops (which never return). -/
inductive MainOutcome where
  | returned (status : Int)
  | jordan_mainloop (magnetometer_gain : Int) (temperature_zero : Int)
  | hero_mainloop (magnetometer_gain : Int) (temperature_zero : Int)
deriving DecidableEq, Repr

/-- What a run of `main` does: the text written with `printf`, the lines
logged with `LOGI`, and how it ends. -/
structure MainRun where
  stdout : String
  log : List String
  outcome : MainOutcome
deriving DecidableEq, Repr

/-- The seven `printf` calls made for a wrong argument count. -/
def usage_text : String :=
  "Usage: akmd <device> <mg> <tz>\n" ++
  "\n" ++
  "device = jordan or hero\n" ++
  "mg = magnetometer gain (0.4 dB)\n" ++
  "tz = temperature zero offset (C)\n" ++
  "\n" ++
  "Both parameters are probably device model specific.\n"

/-- The function `main`; `argv` holds all `argc` entries, the program name
included. The two main loops take `int` parameters, so the `float` parsed
from `argv[3]` is converted to `int` at the call. -/
def main (argv : List String) : MainRun :=
  match argv with
  | [_, device, mg, tz] =>
    let magnetometer_gain : Int := atoi mg
    let temperature_zero : CFloat := atof tz
    let log := ["Akmd: opening devices"]
    if device = "jordan" then
      ⟨"", log, .jordan_mainloop magnetometer_gain temperature_zero.toInt⟩
    else if device = "hero" then
      ⟨"", log, .hero_mainloop magnetometer_gain temperature_zero.toInt⟩
    else
      ⟨"Device '" ++ device ++ "' name is incorrect", log, .returned 1⟩
  | _ => ⟨usage_text, [], .returned 1⟩

/-- The accelerometer driver a main loop constructs. -/
inductive AccelerometerChip where
  | KXTF9
  | BMA150
deriving DecidableEq, Repr

/-- The constructor arguments used in the prologue of a main loop:
`AKM8973_2_6_29(magnetometer_gain)`, the accelerometer chosen, and
`TemperatureReaderAdapter(magnetometer_reader, temperature_zero)`. -/
structure Readers where
  magnetometer_gain : Int
  accelerometer : AccelerometerChip
  temperature_zero : CFloat
deriving DecidableEq, Repr

/-! ## The orchestrator loop of `jordan_mainloop` and `hero_mainloop` -/

/-- What the orchestrator thread does, one entry per call that returned;
`abort` is the process exit taken when a checked call fails. -/
inductive Action where
  | wait_start
  | start
  | mutex_init
  | mutex_lock
  | thread_create
  | wait_stop
  | mutex_unlock
  | thread_join
  | mutex_destroy
  | stop
  | abort
deriving DecidableEq, Repr

/-- The statement of the loop body the orchestrator executes next. -/
inductive Pc where
  | wait_start
  | start
  | mutex_init
  | mutex_lock
  | thread_create
  | wait_stop
  | mutex_unlock
  | thread_join
  | mutex_destroy
  | stop
  | aborted
deriving DecidableEq, Repr

/-- Modelled from the spec: the macro `SUCCEED` comes from `Akmd.hpp`, which is
not among the sources. A failed check is a fatal initialization failure: the
process is aborted. Otherwise the call has happened and control moves on. -/
def SUCCEED (ok : Bool) (call : Action) (next : Pc) : Pc × Action :=
  if ok then (next, call) else (.aborted, .abort)

/-- One statement of the body of `while (true)`, the same in both main
loops. `ok` is whether the pthread call made by the statement returned 0; it
is ignored by the statements that make none. -/
def mainloop_step (ok : Bool) : Pc → Option (Pc × Action)
  | .wait_start => some (.start, .wait_start)
  | .start => some (.mutex_init, .start)
  | .mutex_init => some (SUCCEED ok .mutex_init .mutex_lock)
  | .mutex_lock => some (SUCCEED ok .mutex_lock .thread_create)
  | .thread_create => some (SUCCEED ok .thread_create .wait_stop)
  | .wait_stop => some (.mutex_unlock, .wait_stop)
  | .mutex_unlock => some (SUCCEED ok .mutex_unlock .thread_join)
  | .thread_join => some (SUCCEED ok .thread_join .mutex_destroy)
  | .mutex_destroy => some (SUCCEED ok .mutex_destroy .stop)
  | .stop => some (.wait_start, .stop)
  | .aborted => none

/-- A main loop in progress: the readers built by the prologue, the next
statement, and the actions so far, oldest first. -/
structure Mainloop where
  readers : Readers
  pc : Pc
  trace : List Action
deriving DecidableEq, Repr

/-- Execute one statement. -/
def Mainloop.step (m : Mainloop) (ok : Bool) : Mainloop :=
  match mainloop_step ok m.pc with
  | some (pc, a) => { m with pc := pc, trace := m.trace ++ [a] }
  | none => m

/-- Execute one statement per entry of `outcomes`. -/
def Mainloop.run (m : Mainloop) (outcomes : List Bool) : Mainloop :=
  outcomes.foldl Mainloop.step m

/-- The function `jordan_mainloop`, run for `outcomes.length` statements of
its loop: it never returns, so a run is a finite prefix. -/
def jordan_mainloop (magnetometer_gain temperature_zero : Int) (outcomes : List Bool) :
    Mainloop :=
  Mainloop.run ⟨⟨magnetometer_gain, .KXTF9, CFloat.ofInt temperature_zero⟩, .wait_start, []⟩
    outcomes

/-- The function `hero_mainloop`, run for `outcomes.length` statements of its
loop. -/
def hero_mainloop (magnetometer_gain temperature_zero : Int) (outcomes : List Bool) :
    Mainloop :=
  Mainloop.run ⟨⟨magnetometer_gain, .BMA150, CFloat.ofInt temperature_zero⟩, .wait_start, []⟩
    outcomes

/-- The readers constructed once control reaches a main loop; `none` when
`main` returns without entering one. -/
def constructedReaders : MainOutcome → Option Readers
  | .returned _ => none
  | .jordan_mainloop g z => some (jordan_mainloop g z []).readers
  | .hero_mainloop g z => some (hero_mainloop g z []).readers

/-- Control reached `jordan_mainloop` or `hero_mainloop`. -/
def MainOutcome.enteredMainloop (o : MainOutcome) : Bool :=
  (constructedReaders o).isSome

/-- The ten actions of one pass through the loop body. -/
def mainloop_cycle : List Action :=
  [.wait_start, .start, .mutex_init, .mutex_lock, .thread_create,
   .wait_stop, .mutex_unlock, .thread_join, .mutex_destroy, .stop]

/-- The action is a call that returned, not the abort of the process. -/
def Action.isCall : Action → Bool
  | .abort => false
  | _ => true

/-- The actions the orchestrator cycle of the specification speaks of. -/
def Action.lifecycle : Action → Bool
  | .wait_start | .start | .thread_create | .wait_stop
  | .mutex_unlock | .thread_join | .stop => true
  | _ => false

/-- The cycle of the specification: wait_start, start, spawn, wait_stop,
signal, join, stop. -/
def lifecycle_cycle : List Action :=
  [.wait_start, .start, .thread_create, .wait_stop, .mutex_unlock, .thread_join, .stop]

/-- The sampling threads alive after `trace`: created and not yet joined. -/
def aliveThreads (trace : List Action) : Int :=
  (trace.count .thread_create : Int) - (trace.count .thread_join : Int)

/-- What holds when action `a` is performed after the actions `pre`: a thread
is spawned only after the start of the same cycle and with no thread alive;
`start` and `stop` are called with no thread alive, `start` when every earlier
start has been stopped, `stop` when exactly one start is open and its thread
has been joined. -/
def AtAction (pre : List Action) (a : Action) : Prop :=
  (a = .thread_create →
    aliveThreads pre = 0 ∧ pre.count .start = pre.count .thread_create + 1) ∧
  (a = .start → aliveThreads pre = 0 ∧ pre.count .start = pre.count .stop) ∧
  (a = .stop →
    aliveThreads pre = 0 ∧ pre.count .start = pre.count .stop + 1 ∧
      pre.count .thread_join = pre.count .start)

/-- The discipline of the orchestrator on a trace: apart from a final `abort`
it is whole passes through the loop body followed by the beginning of one; its
lifecycle actions repeat the cycle of the specification; and `AtAction` holds
at every action. -/
def CycleDiscipline (trace : List Action) : Prop :=
  (∃ n k, trace.filter Action.isCall =
      (List.replicate n mainloop_cycle).flatten ++ mainloop_cycle.take k) ∧
  (∃ n, trace.filter Action.lifecycle <+: (List.replicate n lifecycle_cycle).flatten) ∧
  ∀ pre a post, trace = pre ++ a :: post → AtAction pre a

/-- The position of a statement in the loop body. -/
def Pc.idx : Pc → Nat
  | .wait_start => 0
  | .start => 1
  | .mutex_init => 2
  | .mutex_lock => 3
  | .thread_create => 4
  | .wait_stop => 5
  | .mutex_unlock => 6
  | .thread_join => 7
  | .mutex_destroy => 8
  | .stop => 9
  | .aborted => 0

/-- The shape of the trace at a statement: `n` whole passes and the part of
the current one before the statement, or, once aborted, `k` actions of the
current pass and the abort. -/
def Mainloop.Shape (m : Mainloop) (n k : Nat) : Prop :=
  (m.pc = .aborted ∧ k < 10 ∧
      m.trace = (List.replicate n mainloop_cycle).flatten ++ mainloop_cycle.take k ++ [.abort]) ∨
  (m.pc ≠ .aborted ∧ k = m.pc.idx ∧
      m.trace = (List.replicate n mainloop_cycle).flatten ++ mainloop_cycle.take k)

/-- `AtAction` holds at every action of the trace. -/
def EveryAction (trace : List Action) : Prop :=
  ∀ pre a post, trace = pre ++ a :: post → AtAction pre a

/-! ## The sampling thread -/

/-- What the sampling thread does. -/
inductive ThreadAction where
  | measure
  | sleep_until_next_update
deriving DecidableEq, Repr

/-- The function `read_loop`. `trylock i` is the value returned by the call
number `i` of `pthread_mutex_trylock` (0 when the lock was taken). The result
is the actions performed, once the function returns; `none` when `fuel`
iterations do not reach the return. -/
def read_loop (trylock : Nat → Int) : Nat → Nat → Option (List ThreadAction)
  | 0, _ => none
  | fuel + 1, i =>
    if trylock i ≠ 0 then
      (read_loop trylock fuel (i + 1)).map
        fun rest => ThreadAction.measure :: ThreadAction.sleep_until_next_update :: rest
    else some []

end Akmd

namespace SensorKXTF9

open Akmd (CFloat)

/-! ## Constants of the platform headers -/

/-- From linux/input.h. -/
def EV_SYN : Int := 0
/-- From linux/input.h. -/
def EV_ABS : Int := 3
/-- From linux/input.h. -/
def ABS_X : Int := 0
/-- From linux/input.h. -/
def ABS_Y : Int := 1
/-- From linux/input.h. -/
def ABS_Z : Int := 2
/-- From linux/input.h; the source notes the value next to the case label. -/
def ABS_MISC : Int := 0x28
/-- From hardware/sensors.h. -/
def SENSOR_TYPE_ACCELEROMETER : Int := 1
/-- From hardware/sensors.h. -/
def SENSOR_TYPE_ORIENTATION : Int := 3
/-- From hardware/sensors.h. -/
def SENSOR_STATUS_ACCURACY_HIGH : Int := 3
/-- From errno.h. -/
def EINVAL : Int := 22
/-- From kernel/kxtf9.h; the source notes the value next to its use. -/
def KXTF9_SENSOR_ROTATION_MASK : Int := 0x3F

/-- What the absent headers `kernel/kxtf9.h`, `SensorKXTF9.h` and
`SensorBase.h` supply: the unit conversions, the default delay, and the
conversion of an event time to nanoseconds. -/
structure Params where
  KXTF9_CONVERT_A_X : CFloat
  KXTF9_CONVERT_A_Y : CFloat
  KXTF9_CONVERT_A_Z : CFloat
  KXTF9_DEFAULT_DELAY : Int
  timevalToNano : Int × Int → Int

/-! ## Data -/

/-- The `sensors_event_t` of hardware/sensors.h, as far as this file uses it.
`acceleration` and `orientation` are members of one union: `x`, `y`, `z` are
also `azimuth`, `pitch`, `roll`, and the two `status` members are one. -/
structure sensors_event_t where
  version : Int
  sensor : Int
  type : Int
  x : CFloat
  y : CFloat
  z : CFloat
  status : Int
  timestamp : Int
deriving DecidableEq, Repr

/-- The member `orientation.azimuth`. -/
abbrev sensors_event_t.azimuth (e : sensors_event_t) : CFloat := e.x
/-- The member `orientation.pitch`. -/
abbrev sensors_event_t.pitch (e : sensors_event_t) : CFloat := e.y
/-- The member `orientation.roll`. -/
abbrev sensors_event_t.roll (e : sensors_event_t) : CFloat := e.z

/-- The `input_event` of linux/input.h; `time` is seconds and microseconds. -/
structure input_event where
  time : Int × Int
  type : Int
  code : Int
  value : Int
deriving DecidableEq, Repr

/-- The outcome of an `ioctl`: success, or -1 with `errno` set to a positive
error number. -/
inductive IoctlResult where
  | ok
  | fail (errno : Nat)
deriving DecidableEq, Repr

/-- The statement `err = err < 0 ? -errno : 0`; `fail n` stands for the error
number `n + 1`, error numbers being positive. -/
def IoctlResult.err : IoctlResult → Int
  | .ok => 0
  | .fail n => -((n : Int) + 1)

/-- A call that reaches the device. -/
inductive DevOp where
  | openDevice
  | closeDevice
  | ioctl_SET_ENABLE (arg : Int)
  | ioctl_SET_DELAY (arg : Int)
deriving DecidableEq, Repr

/-- The object state used here: the enabled flag (an unsigned integer) and
the event under assembly. -/
structure State where
  mEnabled : Nat
  mPendingEvent : sensors_event_t
deriving DecidableEq, Repr

/-! ## `enable` and `setDelay` -/

/-- The narrowing of a 64-bit value to `int`. -/
def toInt32 (v : Int) : Int := (v + 2 ^ 31) % 2 ^ 32 - 2 ^ 31

/-- The function `setDelay`, given the enabled flag: the value returned and
the device calls made. `r` is the outcome of `KXTF9_IOCTL_SET_DELAY`. -/
def setDelay (mEnabled : Nat) (ns : Int) (r : IoctlResult) : Int × List DevOp :=
  if mEnabled ≠ 0 then
    if ns < 0 then (-EINVAL, [])
    else
      let delay := toInt32 (Int.tdiv ns 1000000)
      (r.err, [.ioctl_SET_DELAY delay])
  else (0, [])

/-- The result of `enable`: the value returned, the state left, and the
device calls made, in order. -/
structure EnableResult where
  ret : Int
  state : State
  ops : List DevOp
deriving DecidableEq, Repr

/-- The function `enable`. `rEnable` and `rDelay` are the outcomes of
`KXTF9_IOCTL_SET_ENABLE` and `KXTF9_IOCTL_SET_DELAY`, were they issued. -/
def enable (P : Params) (s : State) (en : Int) (rEnable rDelay : IoctlResult) :
    EnableResult :=
  let newState : Int := if en ≠ 0 then 1 else 0
  if s.mEnabled = newState.toNat then ⟨0, s, []⟩
  else
    let ops₁ : List DevOp := if s.mEnabled = 0 then [.openDevice] else []
    let ops₂ := ops₁ ++ [.ioctl_SET_ENABLE newState]
    let err := rEnable.err
    let (mEnabled, err, ops₃) :=
      if err = 0 ∨ newState = 0 then
        let d := setDelay newState.toNat P.KXTF9_DEFAULT_DELAY rDelay
        (newState.toNat, d.1, ops₂ ++ d.2)
      else (s.mEnabled, err, ops₂)
    let ops₄ := if mEnabled = 0 then ops₃ ++ [.closeDevice] else ops₃
    ⟨err, { s with mEnabled := mEnabled }, ops₄⟩

/-! ## `processEvent` and `readEvents` -/

/-- The function `processEvent`, on the event under assembly. -/
def processEvent (P : Params) (p : sensors_event_t) (code value : Int) : sensors_event_t :=
  let p := { p with status := 0 }
  if code = ABS_X then
    { p with type := SENSOR_TYPE_ACCELEROMETER, x := CFloat.scaleBy value P.KXTF9_CONVERT_A_X }
  else if code = ABS_Y then
    { p with type := SENSOR_TYPE_ACCELEROMETER, y := CFloat.scaleBy value P.KXTF9_CONVERT_A_Y }
  else if code = ABS_Z then
    { p with type := SENSOR_TYPE_ACCELEROMETER, z := CFloat.scaleBy value P.KXTF9_CONVERT_A_Z }
  else if code = ABS_MISC then
    let p := { p with status := SENSOR_STATUS_ACCURACY_HIGH, type := SENSOR_TYPE_ORIENTATION }
    let state := Int.land value KXTF9_SENSOR_ROTATION_MASK
    let p :=
      if state = 0x04 then { p with z := CFloat.ofInt 0 }
      else if state = 0x8 then { p with z := CFloat.ofInt 2 }
      else if state = 0x10 then { p with z := CFloat.ofInt 3 }
      else if state = 0x20 then { p with z := CFloat.ofInt 1 }
      else p
    { p with y := CFloat.ofInt (Int.land value 0x3) }
  else p

/-- The result of `readEvents`: the value returned, the events written to
`data` in order, the event under assembly, and the events left in the input
reader. -/
structure ReadResult where
  ret : Int
  data : List sensors_event_t
  mPendingEvent : sensors_event_t
  buffer : List input_event
deriving DecidableEq, Repr

/-- The `while` loop of `readEvents`. The input reader is a queue:
`readEvent` offers its head while it is not empty, `next` drops the head. -/
def readEvents.loop (P : Params) (p : sensors_event_t) (count numEventReceived : Int)
    (data : List sensors_event_t) : List input_event → ReadResult
  | [] => ⟨numEventReceived, data, p, []⟩
  | event :: rest =>
    if count = 0 then ⟨numEventReceived, data, p, event :: rest⟩
    else if event.type = EV_ABS then
      readEvents.loop P (processEvent P p event.code event.value) count numEventReceived
        data rest
    else if event.type = EV_SYN then
      let p := { p with timestamp := P.timevalToNano event.time }
      readEvents.loop P p (count - 1) (numEventReceived + 1) (data ++ [p]) rest
    else readEvents.loop P p count numEventReceived data rest

/-- The function `readEvents`. `n` is the value returned by
`mInputReader.fill` and `buffered` the events the reader holds after it. -/
def readEvents (P : Params) (p : sensors_event_t) (count : Int) (n : Int)
    (buffered : List input_event) : ReadResult :=
  if count < 1 then ⟨-EINVAL, [], p, buffered⟩
  else if n < 0 then ⟨n, [], p, buffered⟩
  else readEvents.loop P p count 0 [] buffered

/-- The event assembled from `p` by the `EV_ABS` events of `events`, in
order. -/
def assemble (P : Params) (p : sensors_event_t) (events : List input_event) :
    sensors_event_t :=
  events.foldl
    (fun q e => if e.type = EV_ABS then processEvent P q e.code e.value else q) p

/-- The number of `EV_SYN` events. -/
def countSyn (events : List input_event) : Nat :=
  (events.filter fun e => e.type = EV_SYN).length

/-- The orientation table written in the source above the roll assignment:
chip state and angle in degrees. -/
def documentedRollDegrees : List (Int × Int) :=
  [(0x04, 0), (0x08, 180), (0x10, 270), (0x20, 90)]

/-- Sample parameters, for evaluating the definitions. -/
def sampleParams : Params :=
  ⟨⟨-981, 5⟩, ⟨981, 5⟩, ⟨-981, 5⟩, 200000000, fun t => t.1 * 1000000000 + t.2 * 1000⟩

/-- The event under assembly as the constructor leaves it, the members it
does not set being 0. -/
def initialEvent : sensors_event_t :=
  ⟨104, SENSOR_TYPE_ACCELEROMETER, SENSOR_TYPE_ACCELEROMETER, ⟨0, 0⟩, ⟨0, 0⟩, ⟨0, 0⟩,
   SENSOR_STATUS_ACCURACY_HIGH, 0⟩

end SensorKXTF9

/-! # Properties -/

namespace Akmd

/-! ## `main` -/

theorem device_message_ne_empty (device : String) :
    "Device '" ++ device ++ "' name is incorrect" ≠ "" := by
  intro h
  have h2 := congrArg String.data h
  simp at h2

theorem device_message_ne_usage (device : String) :
    "Device '" ++ device ++ "' name is incorrect" ≠ usage_text := by
  intro h
  have h2 := congrArg String.data h
  simp [usage_text] at h2

/-- C3: when the argument count is not 4, or the model tag `argv[1]` is
neither "jordan" nor "hero", `main` prints some text to standard output and
returns 1; no main loop is entered and no reader is constructed. -/
theorem main_invalid_invocation (argv : List String)
    (h : argv.length ≠ 4 ∨ (argv[1]? ≠ some "jordan" ∧ argv[1]? ≠ some "hero")) :
    (main argv).stdout ≠ "" ∧ (main argv).outcome = .returned 1 ∧
      (main argv).outcome.enteredMainloop = false ∧
      constructedReaders (main argv).outcome = none := by
  unfold main
  split
  · next name device mg tz =>
    simp at h
    obtain ⟨hj, hh⟩ := h
    simp [hj, hh, device_message_ne_empty, MainOutcome.enteredMainloop, constructedReaders]
  · refine ⟨by decide, rfl, rfl, rfl⟩

theorem main_invalid_invocation_witness :
    (["akmd", "jordan"].length ≠ 4 ∨
        ((["akmd", "jordan"] : List String)[1]? ≠ some "jordan" ∧
          (["akmd", "jordan"] : List String)[1]? ≠ some "hero")) ∧
      (main ["akmd", "jordan"]).stdout ≠ "" ∧
      (main ["akmd", "jordan"]).outcome = .returned 1 ∧
      (main ["akmd", "jordan"]).outcome.enteredMainloop = false ∧
      constructedReaders (main ["akmd", "jordan"]).outcome = none :=
  ⟨Or.inl (by decide), main_invalid_invocation ["akmd", "jordan"] (Or.inl (by decide))⟩

/-- C4, as stated, fails: with three arguments and the unknown tag "milestone"
the text printed is not the usage text. -/
theorem unknown_tag_not_usage_text :
    (["akmd", "milestone", "8", "0"] : List String).length = 4 ∧
      "milestone" ≠ "jordan" ∧ "milestone" ≠ "hero" ∧
      (main ["akmd", "milestone", "8", "0"]).stdout = "Device 'milestone' name is incorrect" ∧
      (main ["akmd", "milestone", "8", "0"]).stdout ≠ usage_text := by
  decide

/-- C4, amended: with three arguments and a model tag that is neither "jordan"
nor "hero", `main` prints the message naming the tag, which is never the
usage text, and returns 1; no main loop is entered and no reader is
constructed. -/
theorem main_unknown_tag (name device mg tz : String)
    (hj : device ≠ "jordan") (hh : device ≠ "hero") :
    (main [name, device, mg, tz]).stdout = "Device '" ++ device ++ "' name is incorrect" ∧
      (main [name, device, mg, tz]).stdout ≠ usage_text ∧
      (main [name, device, mg, tz]).outcome = .returned 1 ∧
      (main [name, device, mg, tz]).outcome.enteredMainloop = false ∧
      constructedReaders (main [name, device, mg, tz]).outcome = none := by
  simp [main, hj, hh, device_message_ne_usage, MainOutcome.enteredMainloop,
    constructedReaders]

theorem main_unknown_tag_witness :
    "milestone" ≠ "jordan" ∧ "milestone" ≠ "hero" ∧
      (main ["akmd", "milestone", "8", "0"]).stdout =
        "Device '" ++ "milestone" ++ "' name is incorrect" ∧
      (main ["akmd", "milestone", "8", "0"]).stdout ≠ usage_text ∧
      (main ["akmd", "milestone", "8", "0"]).outcome = .returned 1 ∧
      (main ["akmd", "milestone", "8", "0"]).outcome.enteredMainloop = false ∧
      constructedReaders (main ["akmd", "milestone", "8", "0"]).outcome = none :=
  ⟨by decide, by decide,
    main_unknown_tag "akmd" "milestone" "8" "0" (by decide) (by decide)⟩

/-- C7 at the input `akmd jordan 10 2.5`: `main` parses 2.5 from `argv[3]`,
`jordan_mainloop` receives it through an `int` parameter, and the temperature
adapter is constructed with 2, which is not the value parsed. -/
theorem temperature_zero_loses_fraction :
    atof "2.5" = ⟨25, 1⟩ ∧
      (main ["akmd", "jordan", "10", "2.5"]).outcome = .jordan_mainloop 10 2 ∧
      (constructedReaders (main ["akmd", "jordan", "10", "2.5"]).outcome).map
          Readers.temperature_zero = some (CFloat.ofInt 2) ∧
      ¬ CFloat.sameValue (CFloat.ofInt 2) (atof "2.5") := by
  decide

theorem count_flatten_replicate (a : Action) (l : List Action) (n : Nat) :
    (List.replicate n l).flatten.count a = n * l.count a := by
  induction n with
  | zero => simp
  | succ n ih => simp [List.replicate_succ, List.count_append, ih]; ring

theorem filter_flatten_replicate (p : Action → Bool) (l : List Action) (n : Nat) :
    (List.replicate n l).flatten.filter p = (List.replicate n (l.filter p)).flatten := by
  induction n with
  | zero => simp
  | succ n ih => simp [List.replicate_succ, ih]

theorem flatten_replicate_succ_right (l : List Action) (n : Nat) :
    (List.replicate (n + 1) l).flatten = (List.replicate n l).flatten ++ l := by
  rw [List.replicate_succ']
  simp

theorem everyAction_snoc (t : List Action) (b : Action)
    (ht : EveryAction t) (hb : AtAction t b) : EveryAction (t ++ [b]) := by
  intro pre a post h
  rcases List.eq_nil_or_concat post with hp | ⟨post', c, hp⟩
  · subst hp
    have h2 := List.append_inj' h rfl
    obtain ⟨h3, h4⟩ := h2
    simp at h4
    subst h3; subst h4
    exact hb
  · subst hp
    have h5 : t ++ [b] = (pre ++ a :: post') ++ [c] := by
      rw [h]; simp
    have h2 := List.append_inj' h5 rfl
    exact ht pre a post' h2.1

theorem shape_step (m : Mainloop) (ok : Bool) (n k : Nat) (h : m.Shape n k) :
    ∃ n' k', (m.step ok).Shape n' k' := by
  obtain ⟨r, pc, trace⟩ := m
  rcases h with ⟨hpc, hk, ht⟩ | ⟨hpc, hk, ht⟩
  · simp only at hpc
    subst hpc
    exact ⟨n, k, Or.inl ⟨rfl, hk, ht⟩⟩
  · simp only at hpc hk ht
    subst hk; subst ht
    cases pc <;> cases ok <;>
      first
      | exact absurd rfl hpc
      | (refine ⟨n + 1, 0, Or.inr ⟨?_, ?_, ?_⟩⟩ <;>
          simp [Mainloop.step, mainloop_step, SUCCEED, Pc.idx, mainloop_cycle,
            flatten_replicate_succ_right] <;> done)
      | (refine ⟨n, _, Or.inr ⟨?_, rfl, ?_⟩⟩ <;>
          simp [Mainloop.step, mainloop_step, SUCCEED, Pc.idx, mainloop_cycle] <;> done)
      | (refine ⟨n, _, Or.inl ⟨?_, ?_, rfl⟩⟩ <;>
          simp [Mainloop.step, mainloop_step, SUCCEED, Pc.idx, mainloop_cycle])

theorem everyAction_step (m : Mainloop) (ok : Bool) (n k : Nat) (h : m.Shape n k)
    (hm : EveryAction m.trace) : EveryAction (m.step ok).trace := by
  obtain ⟨r, pc, trace⟩ := m
  rcases h with ⟨hpc, hk, ht⟩ | ⟨hpc, hk, ht⟩
  · simp only at hpc
    subst hpc
    exact hm
  · simp only at hpc hk ht hm
    subst hk
    cases pc <;> cases ok <;>
      first
      | exact absurd rfl hpc
      | (simp only [Mainloop.step, mainloop_step, SUCCEED, if_true, if_false,
          Bool.false_eq_true]
         apply everyAction_snoc _ _ hm
         subst ht
         simp [AtAction, aliveThreads, List.count_append, count_flatten_replicate,
           mainloop_cycle, Pc.idx])

theorem run_invariant (outcomes : List Bool) (m : Mainloop)
    (h : ∃ n k, m.Shape n k) (hm : EveryAction m.trace) :
    (∃ n k, (m.run outcomes).Shape n k) ∧ EveryAction (m.run outcomes).trace := by
  induction outcomes generalizing m with
  | nil => exact ⟨h, hm⟩
  | cons ok rest ih =>
    obtain ⟨n, k, hs⟩ := h
    exact ih (m.step ok) (shape_step m ok n k hs) (everyAction_step m ok n k hs hm)

theorem filter_abort_take (k : Nat) :
    (mainloop_cycle.take k).filter Action.isCall = mainloop_cycle.take k := by
  rw [List.filter_eq_self]
  intro a ha
  have h := List.mem_of_mem_take ha
  simp [mainloop_cycle] at h
  rcases h with h | h | h | h | h | h | h | h | h | h <;> subst h <;> decide

theorem discipline_of_shape (m : Mainloop) (n k : Nat) (h : m.Shape n k)
    (hm : EveryAction m.trace) : CycleDiscipline m.trace := by
  have hc : mainloop_cycle.filter Action.isCall = mainloop_cycle := by decide
  have hl : mainloop_cycle.filter Action.lifecycle = lifecycle_cycle := by decide
  have hp : (List.replicate n lifecycle_cycle).flatten ++
      (mainloop_cycle.take k).filter Action.lifecycle <+:
        (List.replicate (n + 1) lifecycle_cycle).flatten := by
    rw [flatten_replicate_succ_right, List.prefix_append_right_inj, ← hl]
    exact (List.take_prefix k mainloop_cycle).filter _
  refine ⟨⟨n, k, ?_⟩, ⟨n + 1, ?_⟩, hm⟩
  · rcases h with ⟨_, _, ht⟩ | ⟨_, _, ht⟩ <;>
      simp [ht, List.filter_append, filter_flatten_replicate, hc, filter_abort_take,
        Action.isCall]
  · rcases h with ⟨_, _, ht⟩ | ⟨_, _, ht⟩
    · have : m.trace.filter Action.lifecycle = (List.replicate n lifecycle_cycle).flatten ++
          (mainloop_cycle.take k).filter Action.lifecycle := by
        simp [ht, List.filter_append, filter_flatten_replicate, hl, Action.lifecycle]
      rw [this]; exact hp
    · have : m.trace.filter Action.lifecycle = (List.replicate n lifecycle_cycle).flatten ++
          (mainloop_cycle.take k).filter Action.lifecycle := by
        simp [ht, List.filter_append, filter_flatten_replicate, hl]
      rw [this]; exact hp

theorem run_append (m : Mainloop) (xs ys : List Bool) :
    m.run (xs ++ ys) = (m.run xs).run ys := by
  simp [Mainloop.run, List.foldl_append]

theorem run_whole_passes (n : Nat) (r : Readers) (t : List Action) :
    (Mainloop.run ⟨r, .wait_start, t⟩ (List.replicate (10 * n) true)) =
      ⟨r, .wait_start, t ++ (List.replicate n mainloop_cycle).flatten⟩ := by
  induction n generalizing t with
  | zero => simp [Mainloop.run]
  | succ n ih =>
    have h : 10 * (n + 1) = 10 + 10 * n := by ring
    rw [h, List.replicate_add, run_append]
    have h1 : Mainloop.run ⟨r, .wait_start, t⟩ (List.replicate 10 true) =
        ⟨r, .wait_start, t ++ mainloop_cycle⟩ := by
      simp [Mainloop.run, List.replicate, Mainloop.step, mainloop_step, SUCCEED, mainloop_cycle]
    rw [h1, ih]
    simp [List.replicate_succ]

theorem discipline_from_start (r : Readers) (outcomes : List Bool) :
    CycleDiscipline (Mainloop.run ⟨r, .wait_start, []⟩ outcomes).trace := by
  have h0 : (⟨r, .wait_start, []⟩ : Mainloop).Shape 0 0 :=
    Or.inr ⟨by simp, rfl, by simp⟩
  have h1 : EveryAction (⟨r, .wait_start, []⟩ : Mainloop).trace := by
    intro pre a post h
    simp at h
  obtain ⟨⟨n, k, hs⟩, he⟩ := run_invariant outcomes _ ⟨0, 0, h0⟩ h1
  exact discipline_of_shape _ n k hs he

/-- C1: in every run of `jordan_mainloop` and of `hero_mainloop`, whatever the
outcomes of the pthread calls, the actions of the orchestrator are whole passes
wait_start, start, spawn, wait_stop, unlock, join, stop followed by the
beginning of one; a thread is spawned, and `start` and `stop` are called, only
while no sampling thread is alive, `start` before the spawn and `stop` after
the join of its pass, `start` and `stop` alternating from `start`. When no
call fails, `10 * n` statements perform exactly `n` passes. -/
theorem mainloop_cycle_discipline (magnetometer_gain temperature_zero : Int)
    (outcomes : List Bool) (n : Nat) :
    CycleDiscipline (jordan_mainloop magnetometer_gain temperature_zero outcomes).trace ∧
      CycleDiscipline (hero_mainloop magnetometer_gain temperature_zero outcomes).trace ∧
      (jordan_mainloop magnetometer_gain temperature_zero
          (List.replicate (10 * n) true)).trace = (List.replicate n mainloop_cycle).flatten ∧
      (hero_mainloop magnetometer_gain temperature_zero
          (List.replicate (10 * n) true)).trace = (List.replicate n mainloop_cycle).flatten := by
  refine ⟨discipline_from_start _ _, discipline_from_start _ _, ?_, ?_⟩
  · simp [jordan_mainloop, run_whole_passes]
  · simp [hero_mainloop, run_whole_passes]

/-! ## The sampling thread -/

theorem read_loop_from (trylock : Nat → Int) (k : Nat) :
    ∀ fuel i, (∀ j, j < k → trylock (i + j) ≠ 0) → trylock (i + k) = 0 → k < fuel →
      read_loop trylock fuel i =
        some (List.replicate k
          [ThreadAction.measure, ThreadAction.sleep_until_next_update]).flatten := by
  induction k with
  | zero =>
    intro fuel i _ hok hfuel
    obtain ⟨f, rfl⟩ : ∃ f, fuel = f + 1 := ⟨fuel - 1, by omega⟩
    simp at hok
    simp [read_loop, hok]
  | succ k ih =>
    intro fuel i hfail hok hfuel
    obtain ⟨f, rfl⟩ : ∃ f, fuel = f + 1 := ⟨fuel - 1, by omega⟩
    have h0 : trylock i ≠ 0 := by simpa using hfail 0 (by omega)
    have h1 : ∀ j, j < k → trylock (i + 1 + j) ≠ 0 := by
      intro j hj
      have := hfail (j + 1) (by omega)
      rwa [show i + (j + 1) = i + 1 + j by omega] at this
    have h2 : trylock (i + 1 + k) = 0 := by
      rwa [show i + (k + 1) = i + 1 + k by omega] at hok
    simp [read_loop, h0, ih f (i + 1) h1 h2 (by omega), List.replicate_succ]

theorem read_loop_never (trylock : Nat → Int) (h : ∀ j, trylock j ≠ 0) :
    ∀ fuel i, read_loop trylock fuel i = none := by
  intro fuel
  induction fuel with
  | zero => intro i; rfl
  | succ f ih => intro i; simp [read_loop, h i, ih (i + 1)]

/-- C2: `read_loop` tests the lock before every `measure`. If the calls of
`pthread_mutex_trylock` fail `k` times and then succeed, the thread returns
(given more than `k` iterations of fuel) having performed exactly `k` times a
`measure` followed by a `sleep_until_next_update`, and nothing at or after the
successful call: nothing at all when `k = 0`. If the calls never succeed, the
thread never returns. -/
theorem read_loop_stops_at_first_lock (trylock : Nat → Int) (k fuel : Nat)
    (hfail : ∀ j, j < k → trylock j ≠ 0) (hok : trylock k = 0) (hfuel : k < fuel) :
    read_loop trylock fuel 0 =
        some (List.replicate k
          [ThreadAction.measure, ThreadAction.sleep_until_next_update]).flatten ∧
      (k = 0 → read_loop trylock fuel 0 = some []) ∧
      ∀ busy : Nat → Int, (∀ j, busy j ≠ 0) → ∀ f, read_loop busy f 0 = none := by
  have h := read_loop_from trylock k fuel 0 (by simpa using hfail) (by simpa using hok) hfuel
  refine ⟨h, ?_, fun busy hb f => read_loop_never busy hb f 0⟩
  intro hk
  subst hk
  simpa using h

theorem read_loop_stops_at_first_lock_witness :
    read_loop (fun i => if i < 2 then 16 else 0) 3 0 =
        some [ThreadAction.measure, ThreadAction.sleep_until_next_update,
          ThreadAction.measure, ThreadAction.sleep_until_next_update] ∧
      read_loop (fun i => if i < 2 then 16 else 0) 3 0 =
        some (List.replicate 2
          [ThreadAction.measure, ThreadAction.sleep_until_next_update]).flatten :=
  ⟨by decide,
    (read_loop_stops_at_first_lock (fun i => if i < 2 then 16 else 0) 2 3
      (by decide) (by decide) (by decide)).1⟩

end Akmd

namespace SensorKXTF9

open Akmd (CFloat)

/-! ## `processEvent` -/

theorem processEvent_unknown (P : Params) (p : sensors_event_t) (code value : Int)
    (hx : code ≠ ABS_X) (hy : code ≠ ABS_Y) (hz : code ≠ ABS_Z) (hm : code ≠ ABS_MISC) :
    processEvent P p code value = { p with status := 0 } := by
  simp [processEvent, hx, hy, hz, hm]

/-- C5, as stated, fails in part (b): the code 5 is none of `ABS_X`, `ABS_Y`,
`ABS_Z`, `ABS_MISC`, and `processEvent` with it changes the status of the
event the constructor leaves from 3 to 0; the same happens when `readEvents`
meets an `EV_ABS` event with that code. -/
theorem unknown_code_resets_status :
    (5 : Int) ≠ ABS_X ∧ (5 : Int) ≠ ABS_Y ∧ (5 : Int) ≠ ABS_Z ∧ (5 : Int) ≠ ABS_MISC ∧
      initialEvent.status = 3 ∧
      (processEvent sampleParams initialEvent 5 0).status = 0 ∧
      processEvent sampleParams initialEvent 5 0 ≠ initialEvent ∧
      (readEvents sampleParams initialEvent 1 1 [⟨(0, 0), EV_ABS, 5, 0⟩]).mPendingEvent ≠
        initialEvent := by
  decide

/-- C5, amended: (a) an input event whose type is neither `EV_ABS` nor `EV_SYN`
is skipped by `readEvents` with the event under assembly, the output and the
counters exactly as they were; (b) `processEvent` with a code that is none of
`ABS_X`, `ABS_Y`, `ABS_Z`, `ABS_MISC` leaves version, sensor, type, x/y/z
(azimuth/pitch/roll) and timestamp as they were and sets the status to 0, as
it does for every code before looking at it. -/
theorem unknown_event_effect (P : Params) (p : sensors_event_t) :
    (∀ (event : input_event) (rest : List input_event) (count num : Int)
        (data : List sensors_event_t),
        event.type ≠ EV_ABS → event.type ≠ EV_SYN → count ≠ 0 →
          readEvents.loop P p count num data (event :: rest) =
            readEvents.loop P p count num data rest ∧
          (readEvents.loop P p count num data [event]).mPendingEvent = p ∧
          (readEvents.loop P p count num data [event]).data = data) ∧
      (∀ code value : Int,
        code ≠ ABS_X → code ≠ ABS_Y → code ≠ ABS_Z → code ≠ ABS_MISC →
          processEvent P p code value = { p with status := 0 } ∧
          (processEvent P p code value).type = p.type ∧
          (processEvent P p code value).x = p.x ∧
          (processEvent P p code value).y = p.y ∧
          (processEvent P p code value).z = p.z ∧
          (processEvent P p code value).timestamp = p.timestamp ∧
          (processEvent P p code value).status = 0) := by
  constructor
  · intro event rest count num data ha hs hc
    simp [readEvents.loop, ha, hs, hc]
  · intro code value hx hy hz hm
    rw [processEvent_unknown P p code value hx hy hz hm]
    simp

/-- C9: for an `ABS_MISC` event, with `state = value & 0x3F`, the roll becomes
0, 2, 3, 1 for the states 0x04, 0x08, 0x10, 0x20, which is the angle of the
table written in the source divided by 90; for any other state the roll keeps
its value; the pitch becomes `value & 0x3`. -/
theorem orientation_roll_table (P : Params) (p : sensors_event_t) (value : Int) :
    KXTF9_SENSOR_ROTATION_MASK = 0x3F ∧
      (Int.land value KXTF9_SENSOR_ROTATION_MASK = 0x04 →
        (processEvent P p ABS_MISC value).roll = CFloat.ofInt 0) ∧
      (Int.land value KXTF9_SENSOR_ROTATION_MASK = 0x08 →
        (processEvent P p ABS_MISC value).roll = CFloat.ofInt 2) ∧
      (Int.land value KXTF9_SENSOR_ROTATION_MASK = 0x10 →
        (processEvent P p ABS_MISC value).roll = CFloat.ofInt 3) ∧
      (Int.land value KXTF9_SENSOR_ROTATION_MASK = 0x20 →
        (processEvent P p ABS_MISC value).roll = CFloat.ofInt 1) ∧
      (∀ entry ∈ documentedRollDegrees,
        Int.land value KXTF9_SENSOR_ROTATION_MASK = entry.1 →
          (processEvent P p ABS_MISC value).roll = CFloat.ofInt (entry.2 / 90)) ∧
      (Int.land value KXTF9_SENSOR_ROTATION_MASK ≠ 0x04 →
        Int.land value KXTF9_SENSOR_ROTATION_MASK ≠ 0x08 →
        Int.land value KXTF9_SENSOR_ROTATION_MASK ≠ 0x10 →
        Int.land value KXTF9_SENSOR_ROTATION_MASK ≠ 0x20 →
          (processEvent P p ABS_MISC value).roll = p.roll) ∧
      (processEvent P p ABS_MISC value).pitch = CFloat.ofInt (Int.land value 0x3) := by
  have e : ∀ s : Int, Int.land value KXTF9_SENSOR_ROTATION_MASK = s →
      (processEvent P p ABS_MISC value).roll =
        if s = 0x04 then CFloat.ofInt 0 else if s = 0x8 then CFloat.ofInt 2
        else if s = 0x10 then CFloat.ofInt 3 else if s = 0x20 then CFloat.ofInt 1
        else p.roll := by
    intro s hs
    subst hs
    simp only [processEvent, sensors_event_t.roll]
    simp only [show (ABS_MISC = ABS_X) = False from by decide,
      show (ABS_MISC = ABS_Y) = False from by decide,
      show (ABS_MISC = ABS_Z) = False from by decide, if_false, if_true]
    split_ifs <;> rfl
  refine ⟨rfl, ?_, ?_, ?_, ?_, ?_, ?_, ?_⟩
  · intro h; rw [e _ h]; rfl
  · intro h; rw [e _ h]; rfl
  · intro h; rw [e _ h]; rfl
  · intro h; rw [e _ h]; rfl
  · intro entry hmem h
    rw [e _ h]
    simp [documentedRollDegrees] at hmem
    rcases hmem with rfl | rfl | rfl | rfl <;> rfl
  · intro h1 h2 h3 h4
    rw [e _ rfl]
    simp [h1, h2, h3, h4]
  · simp only [processEvent, sensors_event_t.pitch]
    simp only [show (ABS_MISC = ABS_X) = False from by decide,
      show (ABS_MISC = ABS_Y) = False from by decide,
      show (ABS_MISC = ABS_Z) = False from by decide, if_false, if_true]

/-! ## `enable` -/

theorem enable_keeps_flag_boolean (P : Params) (s : State) (en : Int)
    (rEnable rDelay : IoctlResult) (hflag : s.mEnabled = 0 ∨ s.mEnabled = 1) :
    (enable P s en rEnable rDelay).state.mEnabled = 0 ∨
      (enable P s en rEnable rDelay).state.mEnabled = 1 := by
  obtain ⟨mEnabled, pending⟩ := s
  simp only at hflag
  by_cases hen : en = 0 <;> rcases hflag with h | h <;> subst h <;> cases rEnable <;>
    simp [enable, setDelay, IoctlResult.err, hen] <;> split_ifs <;> simp

/-! ## `readEvents` -/

theorem processEvent_timestamp (P : Params) (p : sensors_event_t) (code value t : Int) :
    processEvent P { p with timestamp := t } code value =
      { processEvent P p code value with timestamp := t } := by
  simp only [processEvent]
  split_ifs <;> rfl

theorem assemble_timestamp (P : Params) (events : List input_event) :
    ∀ (p : sensors_event_t) (t : Int),
      assemble P { p with timestamp := t } events =
        { assemble P p events with timestamp := t } := by
  induction events with
  | nil => intro p t; rfl
  | cons e rest ih =>
    intro p t
    simp only [assemble, List.foldl_cons] at ih ⊢
    by_cases h : e.type = EV_ABS
    · simp only [h, if_true]
      rw [processEvent_timestamp, ih]
    · simp only [h, if_false]
      rw [ih]

theorem countSyn_cons (e : input_event) (l : List input_event) :
    countSyn (e :: l) = (if e.type = EV_SYN then 1 else 0) + countSyn l := by
  unfold countSyn
  by_cases h : e.type = EV_SYN <;> simp [List.filter_cons, h] <;> omega

theorem abs_ne_syn (e : input_event) (h : e.type = EV_SYN) : e.type ≠ EV_ABS := by
  rw [h]; decide

theorem loop_cons_zero (P : Params) (p : sensors_event_t) (num : Int)
    (data : List sensors_event_t) (e : input_event) (rest : List input_event) :
    readEvents.loop P p 0 num data (e :: rest) = ⟨num, data, p, e :: rest⟩ := by
  simp [readEvents.loop]

theorem loop_cons_abs (P : Params) (p : sensors_event_t) (count num : Int)
    (data : List sensors_event_t) (e : input_event) (rest : List input_event)
    (hc : count ≠ 0) (h : e.type = EV_ABS) :
    readEvents.loop P p count num data (e :: rest) =
      readEvents.loop P (processEvent P p e.code e.value) count num data rest := by
  simp [readEvents.loop, hc, h]

theorem loop_cons_syn (P : Params) (p : sensors_event_t) (count num : Int)
    (data : List sensors_event_t) (e : input_event) (rest : List input_event)
    (hc : count ≠ 0) (h : e.type = EV_SYN) :
    readEvents.loop P p count num data (e :: rest) =
      readEvents.loop P { p with timestamp := P.timevalToNano e.time } (count - 1) (num + 1)
        (data ++ [{ p with timestamp := P.timevalToNano e.time }]) rest := by
  have hne : ¬ (EV_SYN = EV_ABS) := by decide
  simp only [readEvents.loop, hc, h, hne, if_true, if_false]

theorem loop_cons_other (P : Params) (p : sensors_event_t) (count num : Int)
    (data : List sensors_event_t) (e : input_event) (rest : List input_event)
    (hc : count ≠ 0) (ha : e.type ≠ EV_ABS) (hs : e.type ≠ EV_SYN) :
    readEvents.loop P p count num data (e :: rest) =
      readEvents.loop P p count num data rest := by
  simp [readEvents.loop, hc, ha, hs]

theorem loop_data_extends (P : Params) (buf : List input_event) :
    ∀ (p : sensors_event_t) (count num : Int) (data : List sensors_event_t),
      ∃ out, (readEvents.loop P p count num data buf).data = data ++ out := by
  induction buf with
  | nil => intro p count num data; exact ⟨[], by simp [readEvents.loop]⟩
  | cons e rest ih =>
    intro p count num data
    by_cases hc : count = 0
    · subst hc
      exact ⟨[], by simp [loop_cons_zero]⟩
    by_cases hs : e.type = EV_SYN
    · rw [loop_cons_syn P p count num data e rest hc hs]
      obtain ⟨out, h⟩ := ih { p with timestamp := P.timevalToNano e.time } (count - 1)
        (num + 1) (data ++ [{ p with timestamp := P.timevalToNano e.time }])
      exact ⟨{ p with timestamp := P.timevalToNano e.time } :: out, by rw [h]; simp⟩
    by_cases ha : e.type = EV_ABS
    · rw [loop_cons_abs P p count num data e rest hc ha]
      exact ih _ _ _ _
    · rw [loop_cons_other P p count num data e rest hc ha hs]
      exact ih _ _ _ _

theorem loop_ret (P : Params) (buf : List input_event) :
    ∀ (p : sensors_event_t) (count num : Int) (data : List sensors_event_t), 0 ≤ count →
      (readEvents.loop P p count num data buf).ret = num + min count (countSyn buf) ∧
      ((readEvents.loop P p count num data buf).data.length : Int) =
        data.length + min count (countSyn buf) := by
  induction buf with
  | nil =>
    intro p count num data hc
    simp [readEvents.loop, countSyn, hc]
  | cons e rest ih =>
    intro p count num data hc0
    by_cases hc : count = 0
    · subst hc
      simp [loop_cons_zero]
    by_cases hs : e.type = EV_SYN
    · rw [loop_cons_syn P p count num data e rest hc hs, countSyn_cons, if_pos hs]
      obtain ⟨h4, h5⟩ := ih { p with timestamp := P.timevalToNano e.time } (count - 1)
        (num + 1) (data ++ [{ p with timestamp := P.timevalToNano e.time }]) (by omega)
      rw [h4, h5]
      simp only [List.length_append, List.length_singleton, Nat.cast_add, Nat.cast_one]
      constructor <;> omega
    by_cases ha : e.type = EV_ABS
    · rw [loop_cons_abs P p count num data e rest hc ha, countSyn_cons, if_neg hs]
      simpa using ih (processEvent P p e.code e.value) count num data hc0
    · rw [loop_cons_other P p count num data e rest hc ha hs, countSyn_cons, if_neg hs]
      simpa using ih p count num data hc0

theorem loop_consumed (P : Params) (buf : List input_event) :
    ∀ (p : sensors_event_t) (count num : Int) (data : List sensors_event_t),
      ∃ consumed, buf = consumed ++ (readEvents.loop P p count num data buf).buffer ∧
        (readEvents.loop P p count num data buf).data.length =
          data.length + countSyn consumed := by
  induction buf with
  | nil => intro p count num data; exact ⟨[], by simp [readEvents.loop, countSyn]⟩
  | cons e rest ih =>
    intro p count num data
    by_cases hc : count = 0
    · subst hc
      exact ⟨[], by simp [loop_cons_zero, countSyn]⟩
    by_cases hs : e.type = EV_SYN
    · rw [loop_cons_syn P p count num data e rest hc hs]
      obtain ⟨c, h1, h2⟩ := ih { p with timestamp := P.timevalToNano e.time } (count - 1)
        (num + 1) (data ++ [{ p with timestamp := P.timevalToNano e.time }])
      refine ⟨e :: c, by rw [List.cons_append, ← h1], ?_⟩
      rw [h2, countSyn_cons, if_pos hs]
      simp only [List.length_append, List.length_singleton]
      omega
    by_cases ha : e.type = EV_ABS
    · rw [loop_cons_abs P p count num data e rest hc ha]
      obtain ⟨c, h1, h2⟩ := ih (processEvent P p e.code e.value) count num data
      refine ⟨e :: c, by rw [List.cons_append, ← h1], ?_⟩
      rw [h2, countSyn_cons, if_neg hs]
      omega
    · rw [loop_cons_other P p count num data e rest hc ha hs]
      obtain ⟨c, h1, h2⟩ := ih p count num data
      refine ⟨e :: c, by rw [List.cons_append, ← h1], ?_⟩
      rw [h2, countSyn_cons, if_neg hs]
      omega

theorem assemble_cons_abs (P : Params) (p : sensors_event_t) (e : input_event)
    (l : List input_event) (h : e.type = EV_ABS) :
    assemble P p (e :: l) = assemble P (processEvent P p e.code e.value) l := by
  simp [assemble, h]

theorem assemble_cons_skip (P : Params) (p : sensors_event_t) (e : input_event)
    (l : List input_event) (h : e.type ≠ EV_ABS) :
    assemble P p (e :: l) = assemble P p l := by
  simp [assemble, h]

theorem loop_content (P : Params) (buf : List input_event) :
    ∀ (p : sensors_event_t) (count num : Int) (data : List sensors_event_t)
      (pre : List input_event) (e : input_event) (post : List input_event),
      buf = pre ++ e :: post → e.type = EV_SYN → (countSyn pre : Int) < count →
        (readEvents.loop P p count num data buf).data[data.length + countSyn pre]? =
          some { assemble P p pre with timestamp := P.timevalToNano e.time } := by
  induction buf with
  | nil =>
    intro p count num data pre e post h
    simp at h
  | cons ev rest ih =>
    intro p count num data pre e post h hsyn hlt
    have hc : count ≠ 0 := by
      have : (0 : Int) ≤ (countSyn pre : Int) := Int.ofNat_nonneg _
      omega
    cases pre with
    | nil =>
      simp only [List.nil_append, List.cons.injEq] at h
      obtain ⟨h1, h2⟩ := h
      subst h1
      rw [loop_cons_syn P p count num data ev rest hc hsyn]
      obtain ⟨out, ho⟩ := loop_data_extends P rest
        { p with timestamp := P.timevalToNano ev.time } (count - 1) (num + 1)
        (data ++ [{ p with timestamp := P.timevalToNano ev.time }])
      rw [ho, List.append_assoc]
      simp only [countSyn, List.filter_nil, List.length_nil, Nat.add_zero, assemble,
        List.foldl_nil]
      rw [List.getElem?_append_right (le_refl _)]
      simp
    | cons ev' pre' =>
      simp only [List.cons_append, List.cons.injEq] at h
      obtain ⟨h1, h2⟩ := h
      subst h1
      rw [countSyn_cons] at hlt
      rw [countSyn_cons]
      by_cases hs : ev.type = EV_SYN
      · rw [if_pos hs] at hlt
        rw [loop_cons_syn P p count num data ev rest hc hs, if_pos hs,
          assemble_cons_skip P p ev pre' (abs_ne_syn ev hs)]
        have h3 := ih { p with timestamp := P.timevalToNano ev.time } (count - 1) (num + 1)
          (data ++ [{ p with timestamp := P.timevalToNano ev.time }]) pre' e post h2 hsyn
          (by push_cast at hlt; omega)
        rw [assemble_timestamp] at h3
        rw [show data.length + (1 + countSyn pre') =
          (data ++ [{ p with timestamp := P.timevalToNano ev.time }]).length + countSyn pre' by
            simp only [List.length_append, List.length_singleton]; omega]
        exact h3
      · rw [if_neg hs] at hlt
        rw [if_neg hs]
        have hlt2 : (countSyn pre' : Int) < count := by push_cast at hlt; omega
        by_cases ha : ev.type = EV_ABS
        · rw [loop_cons_abs P p count num data ev rest hc ha, assemble_cons_abs P p ev pre' ha,
            Nat.zero_add]
          exact ih _ count num data pre' e post h2 hsyn hlt2
        · rw [loop_cons_other P p count num data ev rest hc ha hs,
            assemble_cons_skip P p ev pre' ha, Nat.zero_add]
          exact ih _ count num data pre' e post h2 hsyn hlt2

/-- C6: `EV_SYN` is the boundary of a sample. With `count ≥ 1` and a fill that
succeeded, `readEvents` returns the number of events it wrote, which is the
smaller of `count` and the number of `EV_SYN` events buffered; it wrote one
event per `EV_SYN` among the events it consumed and none for the others; and
the event written for an `EV_SYN` is the event under assembly as the `EV_ABS`
events before it left it, with the time of that `EV_SYN` as timestamp. -/
theorem readEvents_sync_boundary (P : Params) (p : sensors_event_t) (count n : Int)
    (buffered : List input_event) (hcount : 1 ≤ count) (hn : 0 ≤ n) :
    (readEvents P p count n buffered).ret = min count (countSyn buffered) ∧
      ((readEvents P p count n buffered).data.length : Int) =
        (readEvents P p count n buffered).ret ∧
      (∃ consumed, buffered = consumed ++ (readEvents P p count n buffered).buffer ∧
        (readEvents P p count n buffered).data.length = countSyn consumed) ∧
      ∀ pre e post, buffered = pre ++ e :: post → e.type = EV_SYN →
        (countSyn pre : Int) < count →
          (readEvents P p count n buffered).data[countSyn pre]? =
            some { assemble P p pre with timestamp := P.timevalToNano e.time } := by
  have h1 : ¬ count < 1 := by omega
  have h2 : ¬ n < 0 := by omega
  have hr : readEvents P p count n buffered = readEvents.loop P p count 0 [] buffered := by
    simp [readEvents, h1, h2]
  rw [hr]
  obtain ⟨h3, h4⟩ := loop_ret P buffered p count 0 [] (by omega)
  refine ⟨by simpa using h3, by rw [h4, h3]; simp, ?_, ?_⟩
  · obtain ⟨c, h5, h6⟩ := loop_consumed P buffered p count 0 []
    exact ⟨c, h5, by simpa using h6⟩
  · intro pre e post hb hs hlt
    simpa using loop_content P buffered p count 0 [] pre e post hb hs hlt

theorem readEvents_sync_boundary_witness :
    (readEvents sampleParams initialEvent 1 3
        [⟨(7, 0), EV_ABS, ABS_X, 100⟩, ⟨(7, 5), EV_SYN, 0, 0⟩, ⟨(8, 0), EV_SYN, 0, 0⟩]).ret =
        min 1 (countSyn
          [⟨(7, 0), EV_ABS, ABS_X, 100⟩, ⟨(7, 5), EV_SYN, 0, 0⟩, ⟨(8, 0), EV_SYN, 0, 0⟩]) ∧
      (readEvents sampleParams initialEvent 1 3
        [⟨(7, 0), EV_ABS, ABS_X, 100⟩, ⟨(7, 5), EV_SYN, 0, 0⟩, ⟨(8, 0), EV_SYN, 0, 0⟩]).ret = 1 ∧
      (readEvents sampleParams initialEvent 1 3
        [⟨(7, 0), EV_ABS, ABS_X, 100⟩, ⟨(7, 5), EV_SYN, 0, 0⟩, ⟨(8, 0), EV_SYN, 0, 0⟩]).data =
        [{ initialEvent with x := ⟨-98100, 5⟩, status := 0, timestamp := 7000005000 }] :=
  ⟨(readEvents_sync_boundary sampleParams initialEvent 1 3
      [⟨(7, 0), EV_ABS, ABS_X, 100⟩, ⟨(7, 5), EV_SYN, 0, 0⟩, ⟨(8, 0), EV_SYN, 0, 0⟩]
      (by decide) (by decide)).1,
    by decide, by decide⟩

end SensorKXTF9
